import Mathlib

/-!
Shallow embedding of the Inode/VFS layer of the easy-fs teaching file
system (`src/easy-fs/src/vfs.rs`).

The `Inode` handle of the source is a locator `(block_id, block_offset)`
into the block cache, obtained from the allocator's
`get_disk_inode_pos(inode_id)`.  That map is injective and external to
the repository snapshot, so the embedding addresses on-disk inode
records directly by inode id: the filesystem state holds the list of
on-disk inode records (`inodes`, indexed by inode id), the free inode
ids of the inode bitmap (`inodeFree`) and the free data-block indices
of the data bitmap (`dataFree`).  A fatal outcome in the source
(an `assert!` failure, an `unwrap()` of `None`, an exhausted bitmap)
is modelled as `none`; the kernel panic discards all observable state.

The `DiskInode` record layout, its byte-range I/O, and the bitmap
allocator live outside `src/` (the repository snapshot contains only
`vfs.rs` of the easy-fs crate), so those collaborators are modelled
from the specification, at directory-record granularity: the VFS layer
only ever reads and writes whole `DIRENT_SZ`-sized records at
record-aligned offsets of a directory inode.
-/

/-- Size in bytes of one directory entry record (`DIRENT_SZ`). -/
def DIRENT_SZ : Nat := 32

/-- Size in bytes of one data block (`BLOCK_SZ`). -/
def BLOCK_SZ : Nat := 512

/-- Modulus of the 32-bit unsigned `nlinks` counter. -/
def U32 : Nat := 2 ^ 32

/-- A fixed-size directory record `{ name, inode_id }` (`DirEntry`).
The source bounds the name to the record's name field; the claims only
involve short names, so the name is modelled as an unbounded string. -/
structure DirEntry where
  name : String
  inode_id : Nat
  deriving DecidableEq, Repr

/-- `DirEntry::empty()`: the all-zero record. -/
def DirEntry.empty : DirEntry := { name := "", inode_id := 0 }

/-- `DiskInodeType`: a disk inode is a file or a directory. -/
inductive DiskInodeType where
  | file
  | directory
  deriving DecidableEq, Repr

/-- Modelled from the spec: the on-disk inode record (`DiskInode`,
external to the snapshot — the repository's `layout.rs` is absent).
`size` is in bytes; `nlinks` is the u32 hard-link count this repository
adds to the record; `entries` is the record-level view of the inode's
byte content (meaningful for directories, read and written only at
`DIRENT_SZ`-aligned offsets by the VFS layer); `blocks` is the list of
data-block indices currently wired into the inode's pointer scheme. -/
structure DiskInode where
  size : Nat
  type_ : DiskInodeType
  nlinks : Nat
  entries : List DirEntry
  blocks : List Nat
  deriving DecidableEq, Repr

/-- `DiskInode::is_dir`. -/
def DiskInode.is_dir (d : DiskInode) : Bool := d.type_ = DiskInodeType.directory

/-- `DiskInode::is_file`. -/
def DiskInode.is_file (d : DiskInode) : Bool := d.type_ = DiskInodeType.file

/-- Modelled from the spec: `DiskInode::initialize(type_)` — a freshly
created inode has size 0, no blocks, and link count 1 ("created with
`nlinks = 1` on `create`"). -/
def initDiskInode (t : DiskInodeType) : DiskInode :=
  { size := 0, type_ := t, nlinks := 1, entries := [], blocks := [] }

/-- Modelled from the spec: `DiskInode::total_blocks(size)` — the number
of blocks reachable through the inode's pointer scheme for a given byte
size.  The claims are insensitive to the exact formula (only the
invariant `blocks.length = total_blocks size` and monotonicity matter);
the model counts one block per started `BLOCK_SZ` bytes. -/
def DiskInode.total_blocks (size : Nat) : Nat :=
  (size + BLOCK_SZ - 1) / BLOCK_SZ

/-- Modelled from the spec: `DiskInode::blocks_num_needed(new_size)` —
the number of additional blocks a growth to `new_size` requires. -/
def DiskInode.blocks_num_needed (d : DiskInode) (new_size : Nat) : Nat :=
  DiskInode.total_blocks new_size - DiskInode.total_blocks d.size

/-- Modelled from the spec: `DiskInode::increase_size(new_size, v, dev)`
sets the size and wires the freshly allocated blocks `v` into the
pointer scheme. -/
def DiskInode.increase_size (d : DiskInode) (new_size : Nat) (v : List Nat) : DiskInode :=
  { d with size := new_size, blocks := d.blocks ++ v }

/-- Modelled from the spec: `DiskInode::clear_size(dev)` detaches every
block from the pointer scheme, sets the size to 0, and returns the list
of now-unused block indices.  The byte content of the detached blocks
is not erased; it merely becomes unreachable (`size = 0`). -/
def DiskInode.clear_size (d : DiskInode) : List Nat × DiskInode :=
  (d.blocks, { d with size := 0, blocks := [] })

/-- `disk_inode.read_at(DIRENT_SZ * i, ...)` at record granularity:
the record at index `i` of the directory's byte content.  The
`assert_eq!(read_at ... , DIRENT_SZ)` of the callers holds whenever
`i < size / DIRENT_SZ`, which every caller establishes. -/
def DiskInode.recordAt (d : DiskInode) (i : Nat) : DirEntry :=
  d.entries.getD i DirEntry.empty

/-- Set index `i` of a record list, extending with zero records if the
list is shorter (bytes between old end-of-content and the write offset
read as zeros). -/
def padSet (l : List DirEntry) (i : Nat) (e : DirEntry) : List DirEntry :=
  if i < l.length then l.set i e
  else l ++ List.replicate (i - l.length) DirEntry.empty ++ [e]

/-- `disk_inode.write_at(DIRENT_SZ * i, dirent.as_bytes(), ...)` at
record granularity.  `DiskInode::write_at` writes only within `size`;
every caller writes a whole record below end-of-size, so the
out-of-bounds branch (a truncated write) leaves the inode unchanged. -/
def DiskInode.writeRecord (d : DiskInode) (i : Nat) (e : DirEntry) : DiskInode :=
  if (i + 1) * DIRENT_SZ ≤ d.size then { d with entries := padSet d.entries i e }
  else d

/-- Number of directory records: `file_count = size / DIRENT_SZ`. -/
def fileCount (d : DiskInode) : Nat := d.size / DIRENT_SZ

/-- Modelled from the spec: the allocator state owned by
`EasyFileSystem` — the on-disk inode records addressed by inode id,
the free inode ids of the inode bitmap, and the free data-block
indices of the data bitmap (allocation takes from the front). -/
structure EasyFileSystem where
  inodes : List DiskInode
  inodeFree : List Nat
  dataFree : List Nat
  deriving DecidableEq, Repr

/-- Modelled from the spec: `EasyFileSystem::alloc_inode` — draw a free
inode id from the inode bitmap; an exhausted bitmap is fatal. -/
def EasyFileSystem.alloc_inode (s : EasyFileSystem) : Option (Nat × EasyFileSystem) :=
  match s.inodeFree with
  | [] => none
  | i :: rest => some (i, { s with inodeFree := rest })

/-- Modelled from the spec: `EasyFileSystem::alloc_data` — draw a free
data-block index from the data bitmap; an exhausted bitmap is fatal. -/
def EasyFileSystem.alloc_data (s : EasyFileSystem) : Option (Nat × EasyFileSystem) :=
  match s.dataFree with
  | [] => none
  | b :: rest => some (b, { s with dataFree := rest })

/-- Modelled from the spec: `EasyFileSystem::dealloc_data(block)` —
return a data-block index to the data bitmap, making it available for
reallocation. -/
def EasyFileSystem.dealloc_data (s : EasyFileSystem) (b : Nat) : EasyFileSystem :=
  { s with dataFree := s.dataFree ++ [b] }

/-- The allocation loop `for _ in 0..blocks_needed { v.push(fs.alloc_data()) }`
of `Inode::increase_size`. -/
def EasyFileSystem.allocMany : Nat → EasyFileSystem → Option (List Nat × EasyFileSystem)
  | 0, s => some ([], s)
  | n + 1, s =>
    match s.alloc_data with
    | none => none
    | some (b, s1) =>
      match EasyFileSystem.allocMany n s1 with
      | none => none
      | some (v, s2) => some (b :: v, s2)

/-- `Inode::find_inode_id(name, disk_inode)`: linear scan over the
`size / DIRENT_SZ` records, returning the first record whose name
matches.  Its `assert!(disk_inode.is_dir())` is a fatal precondition;
the state-level operations below check it at their entry. -/
def find_inode_id (name : String) (d : DiskInode) : Option Nat :=
  match (List.range (fileCount d)).find? (fun i => (d.recordAt i).name = name) with
  | none => none
  | some i => some (d.recordAt i).inode_id

namespace Inode

/-- `Inode::increase_size(new_size, disk_inode, fs)`: no-op when
`new_size < size`; otherwise allocate `blocks_num_needed new_size`
blocks from the data bitmap and wire them in. -/
def increase_size (new_size : Nat) (d : DiskInode) (s : EasyFileSystem) :
    Option (DiskInode × EasyFileSystem) :=
  if new_size < d.size then some (d, s)
  else
    match EasyFileSystem.allocMany (d.blocks_num_needed new_size) s with
    | none => none
    | some (v, s1) => some (d.increase_size new_size v, s1)

/-- `Inode::create(name)` on the directory inode `dirId`:
reject (`None`) if the name already resolves; otherwise allocate and
initialize a fresh file inode, grow the directory by one record, and
append `{name, new_inode_id}` at the previous end-of-size.  Result
`some (some id, s')` is a successful creation, `some (none, s)` the
"already exists" rejection, `none` a fatal condition. -/
def create (s : EasyFileSystem) (dirId : Nat) (name : String) :
    Option (Option Nat × EasyFileSystem) :=
  match s.inodes[dirId]? with
  | none => none
  | some root =>
    if root.is_dir = true then
      if (find_inode_id name root).isSome then some (none, s)
      else
        match s.alloc_inode with
        | none => none
        | some (new_inode_id, s1) =>
          match s1.inodes[new_inode_id]? with
          | none => none
          | some _ =>
            let s2 := { s1 with
              inodes := s1.inodes.set new_inode_id (initDiskInode DiskInodeType.file) }
            match s2.inodes[dirId]? with
            | none => none
            | some root2 =>
              let file_count := fileCount root2
              let new_size := (file_count + 1) * DIRENT_SZ
              match increase_size new_size root2 s2 with
              | none => none
              | some (root3, s3) =>
                let root4 := root3.writeRecord file_count (DirEntry.mk name new_inode_id)
                some (some new_inode_id, { s3 with inodes := s3.inodes.set dirId root4 })
    else none

/-- `Inode::ls()`: the names of all records in on-disk order. -/
def ls (s : EasyFileSystem) (dirId : Nat) : Option (List String) :=
  match s.inodes[dirId]? with
  | none => none
  | some d => some ((List.range (fileCount d)).map (fun i => (d.recordAt i).name))

/-- `Inode::clear()` on inode `inodeId`: ask the disk inode for the
list of now-unused blocks, assert the count matches
`total_blocks(old_size)`, and return every one to the allocator. -/
def clear (s : EasyFileSystem) (inodeId : Nat) : Option EasyFileSystem :=
  match s.inodes[inodeId]? with
  | none => none
  | some d =>
    let size := d.size
    let cleared := d.clear_size
    if cleared.1.length = DiskInode.total_blocks size then
      some (cleared.1.foldl (fun st b => st.dealloc_data b)
        { s with inodes := s.inodes.set inodeId cleared.2 })
    else none

/-- `Inode::modify_entry(name, disk_inode)`: linear scan to the first
record whose name matches; shift every subsequent record left by one
slot (`for j in i..file_count - 1` reads record `j+1` and writes it at
`j`), then truncate the size by one record.  No match leaves the inode
unchanged. -/
def modify_entry (name : String) (d : DiskInode) : DiskInode :=
  let file_count := fileCount d
  match (List.range file_count).find? (fun i => (d.recordAt i).name = name) with
  | none => d
  | some i =>
    let d1 := (List.range' i (file_count - 1 - i)).foldl
      (fun acc j => acc.writeRecord j (acc.recordAt (j + 1))) d
    { d1 with size := (file_count - 1) * DIRENT_SZ }

/-- `Inode::linkat(old_name, new_name)` on directory `dirId`:
reject with −1 when the two names are equal; otherwise resolve
`old_name`, append `{new_name, inode_id.unwrap()}` by the same
grow-then-write sequence as `create`, and increment the target inode's
`nlinks`.  The `unwrap()` of an unresolved `old_name` happens inside
the directory-modify closure and panics the kernel; since a panic
discards all observable state the model short-circuits to `none`. -/
def linkat (s : EasyFileSystem) (dirId : Nat) (old_name new_name : String) :
    Option (Int × EasyFileSystem) :=
  if old_name = new_name then some (-1, s)
  else
    match s.inodes[dirId]? with
    | none => none
    | some root =>
      if root.is_dir = true then
        match find_inode_id old_name root with
        | none => none
        | some inode_id =>
          let file_count := fileCount root
          let new_size := (file_count + 1) * DIRENT_SZ
          match increase_size new_size root s with
          | none => none
          | some (root1, s1) =>
            let root2 := root1.writeRecord file_count (DirEntry.mk new_name inode_id)
            let s2 := { s1 with inodes := s1.inodes.set dirId root2 }
            match s2.inodes[inode_id]? with
            | none => none
            | some d =>
              let d1 : DiskInode := { d with nlinks := (d.nlinks + 1) % U32 }
              some (0, { s2 with inodes := s2.inodes.set inode_id d1 })
      else none

/-- `Inode::unlinkat(name)` on directory `dirId`: resolve the name
(−1 when absent); decrement the target's `nlinks` (u32 wrapping);
when it reaches 0, detach the inode's blocks with `clear_size` — the
returned block list is dropped, no `dealloc_data` happens here; then
remove the directory record through `modify_entry`. -/
def unlinkat (s : EasyFileSystem) (dirId : Nat) (name : String) :
    Option (Int × EasyFileSystem) :=
  match s.inodes[dirId]? with
  | none => none
  | some root =>
    if root.is_dir = true then
      match find_inode_id name root with
      | none => some (-1, s)
      | some i_id =>
        match s.inodes[i_id]? with
        | none => none
        | some d =>
          let nl := (d.nlinks + (U32 - 1)) % U32
          let d1 : DiskInode := { d with nlinks := nl }
          let d2 := if nl = 0 then d1.clear_size.2 else d1
          let s1 := { s with inodes := s.inodes.set i_id d2 }
          match s1.inodes[dirId]? with
          | none => none
          | some root1 =>
            some (0, { s1 with inodes := s1.inodes.set dirId (modify_entry name root1) })
    else none

/-- `Inode::state(inode_id)`: load the addressed record through a
`modify` closure that reads `nlinks` and `is_file` and writes nothing,
so the record is stored back unchanged. -/
def state (s : EasyFileSystem) (inode_id : Nat) : Option ((Nat × Bool) × EasyFileSystem) :=
  match s.inodes[inode_id]? with
  | none => none
  | some d => some ((d.nlinks, d.is_file), { s with inodes := s.inodes.set inode_id d })

end Inode

/-- The target inode produced by the modify closure of
`Inode::unlinkat`: `nlinks` decremented with u32 wrapping; if it
reaches 0 the blocks are detached by `clear_size` — whose returned
block list the closure drops on the floor. -/
def unlinkedInode (d : DiskInode) : DiskInode :=
  let nl := (d.nlinks + (U32 - 1)) % U32
  let d1 : DiskInode := { d with nlinks := nl }
  if nl = 0 then d1.clear_size.2 else d1

/-! ### Concrete fixture states used by witnesses and counterexamples -/

/-- A directory holding one record `"a" ↦ inode 1`. -/
def demoRoot : DiskInode :=
  { size := 32, type_ := DiskInodeType.directory, nlinks := 1,
    entries := [{ name := "a", inode_id := 1 }], blocks := [10] }

/-- A one-block file inode with a single link. -/
def demoFile : DiskInode :=
  { size := 512, type_ := DiskInodeType.file, nlinks := 1, entries := [], blocks := [100] }

/-- An uninitialized inode record slot. -/
def blankInode : DiskInode :=
  { size := 0, type_ := DiskInodeType.file, nlinks := 0, entries := [], blocks := [] }

/-- Filesystem with root directory `[a ↦ 1]`, file inode 1 owning data
block 100, two free inode slots and three free data blocks. -/
def demoFs : EasyFileSystem :=
  { inodes := [demoRoot, demoFile, blankInode, blankInode],
    inodeFree := [2, 3], dataFree := [200, 201, 202] }

/-- The state `demoFs` reaches after `unlinkat "a"`: inode 1 has
`nlinks = 0`, `size = 0` and no blocks, the root directory is empty,
and — crucially — block 100 was never handed back to `dataFree`. -/
def demoFsAfter : EasyFileSystem :=
  { inodes :=
      [{ size := 0, type_ := DiskInodeType.directory, nlinks := 1,
         entries := [{ name := "a", inode_id := 1 }], blocks := [10] },
       { size := 0, type_ := DiskInodeType.file, nlinks := 0, entries := [], blocks := [] },
       blankInode, blankInode],
    inodeFree := [2, 3], dataFree := [200, 201, 202] }

/-- A packed directory `[a ↦ 1, b ↦ 2, c ↦ 3]`. -/
def abcRoot : DiskInode :=
  { size := 96, type_ := DiskInodeType.directory, nlinks := 1,
    entries := [{ name := "a", inode_id := 1 }, { name := "b", inode_id := 2 },
                { name := "c", inode_id := 3 }],
    blocks := [10] }

/-- An empty file inode with a single link. -/
def plainFile : DiskInode :=
  { size := 0, type_ := DiskInodeType.file, nlinks := 1, entries := [], blocks := [] }

/-- Filesystem whose root directory holds the packed entries `[a, b, c]`. -/
def abcFs : EasyFileSystem :=
  { inodes := [abcRoot, plainFile, plainFile, plainFile],
    inodeFree := [], dataFree := [200] }

/-- An empty root directory. -/
def emptyRoot : DiskInode :=
  { size := 0, type_ := DiskInodeType.directory, nlinks := 1, entries := [], blocks := [] }

/-- Fresh filesystem: empty root, two free inode slots, three free blocks. -/
def chainFs0 : EasyFileSystem :=
  { inodes := [emptyRoot, blankInode, blankInode],
    inodeFree := [1, 2], dataFree := [50, 51, 52] }

/-- Root directory of `chainFs1`: one record, one data block. -/
def chainRoot1 : DiskInode :=
  { size := 32, type_ := DiskInodeType.directory, nlinks := 1,
    entries := [{ name := "a", inode_id := 1 }], blocks := [50] }

/-- `chainFs0` after `create "a"` (inode 1 allocated, block 50 drawn). -/
def chainFs1 : EasyFileSystem :=
  { inodes := [chainRoot1, plainFile, blankInode],
    inodeFree := [2], dataFree := [51, 52] }

/-- Root directory of `chainFs2`: records `a` and `b`, both for inode 1. -/
def chainRoot2 : DiskInode :=
  { size := 64, type_ := DiskInodeType.directory, nlinks := 1,
    entries := [{ name := "a", inode_id := 1 }, { name := "b", inode_id := 1 }],
    blocks := [50] }

/-- Inode 1 of `chainFs2`: two hard links. -/
def chainFile2 : DiskInode :=
  { size := 0, type_ := DiskInodeType.file, nlinks := 2, entries := [], blocks := [] }

/-- `chainFs1` after `linkat "a" "b"` (second record, `nlinks = 2`). -/
def chainFs2 : EasyFileSystem :=
  { inodes := [chainRoot2, chainFile2, blankInode],
    inodeFree := [2], dataFree := [51, 52] }

/-! ### General-purpose helper lemmas -/

theorem List_set_get?_self {α : Type} (l : List α) (i : Nat) (a : α)
    (h : l[i]? = some a) : l.set i a = l := by
  induction l generalizing i with
  | nil => simp at h
  | cons x t ih =>
    cases i with
    | zero => simp_all [List.get?]
    | succ j => simp_all [List.get?, List.set]

theorem allocMany_of_le (n : Nat) (s : EasyFileSystem) (h : n ≤ s.dataFree.length) :
    EasyFileSystem.allocMany n s =
      some (s.dataFree.take n, { s with dataFree := s.dataFree.drop n }) := by
  induction n generalizing s with
  | zero => simp [EasyFileSystem.allocMany]
  | succ m ih =>
    match hdf : s.dataFree with
    | [] => rw [hdf] at h; simp at h
    | b :: rest =>
      have hlen : m ≤ rest.length := by
        rw [hdf] at h; simpa using Nat.le_of_succ_le_succ h
      have := ih { s with dataFree := rest } hlen
      simp [EasyFileSystem.allocMany, EasyFileSystem.alloc_data, hdf, this]

theorem foldl_dealloc (l : List Nat) (s : EasyFileSystem) :
    l.foldl (fun st b => st.dealloc_data b) s = { s with dataFree := s.dataFree ++ l } := by
  induction l generalizing s with
  | nil => simp
  | cons b t ih =>
    rw [List.foldl_cons, ih]
    simp [EasyFileSystem.dealloc_data]

theorem range_map_getD {α : Type} (l : List α) (dflt : α) :
    (List.range l.length).map (fun i => l.getD i dflt) = l := by
  induction l with
  | nil => simp
  | cons a t ih =>
    rw [List.length_cons, List.range_succ_eq_map, List.map_cons, List.map_map]
    have h2 : ((fun i => (a :: t).getD i dflt) ∘ Nat.succ) = fun i => t.getD i dflt := by
      funext i; simp
    rw [h2, ih]
    simp

/-! ### Execution lemmas for the mutating operations -/

/-- The grown directory size `(file_count + 1) * DIRENT_SZ` always
strictly exceeds the current size, so the early return of
`increase_size` never fires in `create`/`linkat`. -/
theorem size_lt_grown (d : DiskInode) : d.size < (fileCount d + 1) * DIRENT_SZ := by
  have h32 : 0 < DIRENT_SZ := by norm_num [DIRENT_SZ]
  exact (Nat.div_lt_iff_lt_mul h32).1 (Nat.lt_succ_self (d.size / DIRENT_SZ))

/-- Unfolding of `Inode::increase_size` on the growth path taken by
`create` and `linkat`, with enough free data blocks. -/
theorem increase_size_grow (d : DiskInode) (s : EasyFileSystem)
    (halloc : d.blocks_num_needed ((fileCount d + 1) * DIRENT_SZ) ≤ s.dataFree.length) :
    Inode.increase_size ((fileCount d + 1) * DIRENT_SZ) d s =
      some (d.increase_size ((fileCount d + 1) * DIRENT_SZ)
              (s.dataFree.take (d.blocks_num_needed ((fileCount d + 1) * DIRENT_SZ))),
            { s with dataFree :=
                s.dataFree.drop (d.blocks_num_needed ((fileCount d + 1) * DIRENT_SZ)) }) := by
  unfold Inode.increase_size
  rw [if_neg (Nat.not_lt.2 (Nat.le_of_lt (size_lt_grown d))),
    allocMany_of_le _ _ halloc]

/-- Full unfolding of a successful `Inode::create`. -/
theorem create_spec (s : EasyFileSystem) (dirId : Nat) (name : String)
    (root : DiskInode) (nid : Nat) (rest : List Nat)
    (hroot : s.inodes[dirId]? = some root) (hdir : root.is_dir = true)
    (hnodup : find_inode_id name root = none)
    (hfree : s.inodeFree = nid :: rest) (hnid : nid ≠ dirId)
    (hvalid : nid < s.inodes.length)
    (halloc : root.blocks_num_needed ((fileCount root + 1) * DIRENT_SZ) ≤ s.dataFree.length) :
    Inode.create s dirId name =
      some (some nid,
        { inodes := (s.inodes.set nid (initDiskInode DiskInodeType.file)).set dirId
            ((root.increase_size ((fileCount root + 1) * DIRENT_SZ)
                (s.dataFree.take
                  (root.blocks_num_needed ((fileCount root + 1) * DIRENT_SZ)))).writeRecord
              (fileCount root) (DirEntry.mk name nid)),
          inodeFree := rest,
          dataFree :=
            s.dataFree.drop (root.blocks_num_needed ((fileCount root + 1) * DIRENT_SZ)) }) := by
  have hvalid' : s.inodes[nid]? = some (s.inodes.get ⟨nid, hvalid⟩) :=
    List.getElem?_eq_getElem hvalid
  have hset : (s.inodes.set nid (initDiskInode DiskInodeType.file))[dirId]? = some root := by
    rw [List.getElem?_set_ne hnid, hroot]
  have halloc2 : root.blocks_num_needed ((fileCount root + 1) * DIRENT_SZ) ≤
      ({ inodes := s.inodes.set nid (initDiskInode DiskInodeType.file), inodeFree := rest,
         dataFree := s.dataFree } : EasyFileSystem).dataFree.length := halloc
  simp only [Inode.create, hroot, hdir, hnodup, Option.isSome_none, Bool.false_eq_true,
    if_false, if_true, EasyFileSystem.alloc_inode, hfree, hvalid', hset,
    increase_size_grow root _ halloc2]

/-- Full unfolding of a successful `Inode::linkat` whose `old_name`
resolves (to an inode other than the directory itself). -/
theorem linkat_spec (s : EasyFileSystem) (dirId : Nat) (old_name new_name : String)
    (root d : DiskInode) (i_id : Nat)
    (hne : old_name ≠ new_name)
    (hroot : s.inodes[dirId]? = some root) (hdir : root.is_dir = true)
    (hfind : find_inode_id old_name root = some i_id) (hneq : i_id ≠ dirId)
    (halloc : root.blocks_num_needed ((fileCount root + 1) * DIRENT_SZ) ≤ s.dataFree.length)
    (hd : s.inodes[i_id]? = some d) :
    Inode.linkat s dirId old_name new_name =
      some (0,
        { inodes := (s.inodes.set dirId
            ((root.increase_size ((fileCount root + 1) * DIRENT_SZ)
                (s.dataFree.take
                  (root.blocks_num_needed ((fileCount root + 1) * DIRENT_SZ)))).writeRecord
              (fileCount root) (DirEntry.mk new_name i_id))).set i_id
            { d with nlinks := (d.nlinks + 1) % U32 },
          inodeFree := s.inodeFree,
          dataFree :=
            s.dataFree.drop (root.blocks_num_needed ((fileCount root + 1) * DIRENT_SZ)) }) := by
  have hd' : ∀ r : DiskInode, (s.inodes.set dirId r)[i_id]? = some d := by
    intro r; rw [List.getElem?_set_ne (Ne.symm hneq), hd]
  simp only [Inode.linkat, if_neg hne, hroot, hdir, hfind, if_true,
    increase_size_grow root _ halloc, hd']

/-- Full unfolding of a successful `Inode::unlinkat` whose name
resolves (to an inode other than the directory itself). -/
theorem unlinkat_spec (s : EasyFileSystem) (dirId : Nat) (name : String)
    (root d : DiskInode) (i_id : Nat)
    (hroot : s.inodes[dirId]? = some root) (hdir : root.is_dir = true)
    (hfind : find_inode_id name root = some i_id) (hneq : i_id ≠ dirId)
    (hd : s.inodes[i_id]? = some d) :
    Inode.unlinkat s dirId name =
      some (0, { inodes := (s.inodes.set i_id (unlinkedInode d)).set dirId
                    (Inode.modify_entry name root),
                 inodeFree := s.inodeFree, dataFree := s.dataFree }) := by
  have hset : ∀ r : DiskInode, (s.inodes.set i_id r)[dirId]? = some root := by
    intro r; rw [List.getElem?_set_ne hneq, hroot]
  simp only [Inode.unlinkat, hroot, hdir, hfind, hd, if_true, unlinkedInode, hset]

/-- Running `Inode::state` on a valid inode id returns the record's
`(nlinks, is_file)` pair and stores the record back unchanged. -/
theorem state_run (s : EasyFileSystem) (inode_id : Nat) (d : DiskInode)
    (h : s.inodes[inode_id]? = some d) :
    Inode.state s inode_id = some ((d.nlinks, d.is_file), s) := by
  simp [Inode.state, h, List_set_get?_self s.inodes inode_id d h]

theorem lt_length_of_getElem? {α : Type} {l : List α} {i : Nat} {a : α}
    (h : l[i]? = some a) : i < l.length := by
  by_contra hn
  rw [List.getElem?_eq_none (Nat.le_of_not_lt hn)] at h
  exact Option.noConfusion h

/-- Both branches of the `unlinkat` modify closure leave the
decremented link count in the record. -/
theorem unlinkedInode_nlinks (d : DiskInode) :
    (unlinkedInode d).nlinks = (d.nlinks + (U32 - 1)) % U32 := by
  simp only [unlinkedInode]
  split <;> rfl

/-- Neither branch of the `unlinkat` modify closure changes the type. -/
theorem unlinkedInode_type (d : DiskInode) :
    (unlinkedInode d).type_ = d.type_ := by
  simp only [unlinkedInode]
  split <;> rfl

theorem unlinkedInode_is_file (d : DiskInode) :
    (unlinkedInode d).is_file = d.is_file := by
  simp only [DiskInode.is_file, unlinkedInode_type]

/-- The u32 decrement of `unlinkat` is an exact decrement below the
wrap-around boundary. -/
theorem u32_dec_eq (n : Nat) (h1 : 1 ≤ n) (h2 : n < U32) :
    (n + (U32 - 1)) % U32 = n - 1 := by
  have hU : U32 = 4294967296 := rfl
  rw [hU] at h2 ⊢
  have he : n + (4294967296 - 1) = (n - 1) + 4294967296 := by omega
  rw [he, Nat.add_mod_right]
  exact Nat.mod_eq_of_lt (by omega)

/-- `write_at` of a directory record never changes the inode's size. -/
theorem writeRecord_size (d : DiskInode) (i : Nat) (e : DirEntry) :
    (d.writeRecord i e).size = d.size := by
  unfold DiskInode.writeRecord
  split <;> rfl

/-- For a packed directory, growing by one record means growing by
exactly `DIRENT_SZ` bytes. -/
theorem grown_size_eq (d : DiskInode) (hmul : DIRENT_SZ ∣ d.size) :
    (fileCount d + 1) * DIRENT_SZ = d.size + DIRENT_SZ := by
  obtain ⟨k, hk⟩ := hmul
  rw [fileCount, hk, Nat.mul_div_cancel_left k (by norm_num [DIRENT_SZ] : 0 < DIRENT_SZ)]
  ring

/-- When the name is found, `modify_entry` truncates the size by
exactly one record slot. -/
theorem modify_entry_size_of_found (name : String) (d : DiskInode) (i_id : Nat)
    (hfind : find_inode_id name d = some i_id) :
    (Inode.modify_entry name d).size = (fileCount d - 1) * DIRENT_SZ := by
  unfold find_inode_id at hfind
  unfold Inode.modify_entry
  cases hfq : (List.range (fileCount d)).find? (fun i => (d.recordAt i).name = name) with
  | none => rw [hfq] at hfind; exact Option.noConfusion hfind
  | some i => simp only [hfq]

/-- A name can only be found in a directory with at least one record. -/
theorem fileCount_pos_of_found (name : String) (d : DiskInode) (i_id : Nat)
    (hfind : find_inode_id name d = some i_id) : 1 ≤ fileCount d := by
  unfold find_inode_id at hfind
  cases hfq : (List.range (fileCount d)).find? (fun i => (d.recordAt i).name = name) with
  | none => rw [hfq] at hfind; exact Option.noConfusion hfind
  | some i =>
    have hmem := List.mem_of_find?_eq_some hfq
    have := List.mem_range.1 hmem
    omega

/-- A record written by `padSet` reads back at its index. -/
theorem padSet_getD (l : List DirEntry) (i : Nat) (e : DirEntry) :
    (padSet l i e).getD i DirEntry.empty = e := by
  unfold padSet
  split
  · rw [List.getD_eq_getElem?_getD, List.getElem?_set_self (by simpa)]
    rfl
  · have hlen : l.length ≤ i := Nat.le_of_not_lt (by assumption)
    rw [List.getD_eq_getElem?_getD,
      List.getElem?_append_right (by simp [hlen])]
    simp [hlen]

/-- A record written below end-of-size reads back at its index. -/
theorem writeRecord_recordAt (d : DiskInode) (i : Nat) (e : DirEntry)
    (h : (i + 1) * DIRENT_SZ ≤ d.size) :
    (d.writeRecord i e).recordAt i = e := by
  unfold DiskInode.writeRecord
  rw [if_pos h]
  exact padSet_getD d.entries i e

/-! ### Claim theorems -/

/-- C5: `increase_size` is a no-op whenever the requested size is at most
the current size — the inode and the allocator state are returned
unchanged and no data block is drawn.  (For `new_size < size` the early
return fires; for `new_size = size` the code proceeds but needs zero
blocks and rewires nothing.) -/
theorem increase_size_noop_of_le (new_size : Nat) (d : DiskInode) (s : EasyFileSystem)
    (h : new_size ≤ d.size) :
    Inode.increase_size new_size d s = some (d, s) := by
  unfold Inode.increase_size
  by_cases hlt : new_size < d.size
  · simp [hlt]
  · have heq : new_size = d.size := Nat.le_antisymm h (Nat.le_of_not_lt hlt)
    subst heq
    simp [hlt, DiskInode.blocks_num_needed, EasyFileSystem.allocMany,
      DiskInode.increase_size]

/-- Witness for C5 at a concrete inode and state. -/
theorem increase_size_noop_witness :
    32 ≤ demoFile.size ∧ Inode.increase_size 32 demoFile demoFs = some (demoFile, demoFs) :=
  ⟨by decide, increase_size_noop_of_le 32 demoFile demoFs (by decide)⟩

/-- C8: `linkat(n, n)` returns −1 immediately and leaves the whole
filesystem state — directory record count, directory size, and every
inode's `nlinks` — unchanged (the returned state is the input state). -/
theorem linkat_self_rejected (s : EasyFileSystem) (dirId : Nat) (n : String) :
    Inode.linkat s dirId n n = some (-1, s) := by
  unfold Inode.linkat
  simp

/-- C2: if `name` already resolves in the directory, `create` returns
the rejection (`none` result) and the state — directory record count,
size, and both bitmaps — is returned unchanged. -/
theorem create_duplicate_rejected (s : EasyFileSystem) (dirId : Nat) (name : String)
    (root : DiskInode) (hroot : s.inodes[dirId]? = some root)
    (hdir : root.is_dir = true) (hdup : (find_inode_id name root).isSome = true) :
    Inode.create s dirId name = some (none, s) := by
  unfold Inode.create
  rw [hroot]
  simp [hdir, hdup]

/-- Witness for C2: creating `"a"` again in `demoFs` is rejected. -/
theorem create_duplicate_rejected_witness :
    demoFs.inodes[0]? = some demoRoot ∧ demoRoot.is_dir = true ∧
    (find_inode_id "a" demoRoot).isSome = true ∧
    Inode.create demoFs 0 "a" = some (none, demoFs) :=
  ⟨by decide, by decide, by decide,
    create_duplicate_rejected demoFs 0 "a" demoRoot (by decide) (by decide) (by decide)⟩

/-- C10: `state(inode_id)` returns the pair `(nlinks, is_file)` of the
addressed record and leaves the filesystem state unchanged, although it
goes through a `modify` closure (the closure writes the record back
unmodified). -/
theorem state_readonly (s : EasyFileSystem) (inode_id : Nat) (d : DiskInode)
    (h : s.inodes[inode_id]? = some d) :
    Inode.state s inode_id = some ((d.nlinks, d.is_file), s) :=
  state_run s inode_id d h

/-- Witness for C10 at inode 1 of `demoFs`. -/
theorem state_readonly_witness :
    demoFs.inodes[1]? = some demoFile ∧
    Inode.state demoFs 1 = some ((1, true), demoFs) :=
  ⟨rfl, state_readonly demoFs 1 demoFile rfl⟩

/-- C9: on an inode satisfying the size/block consistency invariant
(`blocks.length = total_blocks size`), `clear` truncates to size 0,
the freed-block list has exactly `total_blocks(old_size)` entries (so
the internal assertion holds and `clear` succeeds), and every freed
block is returned to the allocator through `dealloc_data`. -/
theorem clear_reclaims (s : EasyFileSystem) (inodeId : Nat) (d : DiskInode)
    (h : s.inodes[inodeId]? = some d)
    (hinv : d.blocks.length = DiskInode.total_blocks d.size) :
    Inode.clear s inodeId =
      some { inodes := s.inodes.set inodeId { d with size := 0, blocks := [] },
             inodeFree := s.inodeFree,
             dataFree := s.dataFree ++ d.blocks } ∧
    ∀ b ∈ d.blocks, b ∈ s.dataFree ++ d.blocks := by
  constructor
  · unfold Inode.clear
    rw [h]
    simp only [DiskInode.clear_size, hinv, ite_true, eq_self_iff_true, if_pos]
    rw [foldl_dealloc]
  · intro b hb
    exact List.mem_append_right _ hb

/-- Witness for C9: clearing inode 1 of `demoFs` returns block 100. -/
theorem clear_reclaims_witness :
    demoFs.inodes[1]? = some demoFile ∧
    demoFile.blocks.length = DiskInode.total_blocks demoFile.size ∧
    (Inode.clear demoFs 1 =
      some { inodes := demoFs.inodes.set 1 { demoFile with size := 0, blocks := [] },
             inodeFree := demoFs.inodeFree,
             dataFree := demoFs.dataFree ++ demoFile.blocks } ∧
     ∀ b ∈ demoFile.blocks, b ∈ demoFs.dataFree ++ demoFile.blocks) :=
  ⟨rfl, by decide, clear_reclaims demoFs 1 demoFile rfl (by decide)⟩

/-- C1 counterexample: in `demoFs`, the name `"a"` resolves to inode 1
with `nlinks = 1` and data block 100.  `unlinkat "a"` drives `nlinks`
to 0 and detaches block 100 from the inode's pointer structure, yet the
allocator's free set is unchanged afterwards — block 100 is *not*
returned for reallocation (and the inode bitmap is unchanged too).
This refutes the claim that every freed block is returned to the
filesystem allocator. -/
theorem unlinkat_no_dealloc_counterexample :
    demoFile.nlinks = 1 ∧ demoFile.blocks = [100] ∧
    demoFs.inodes[1]? = some demoFile ∧
    Inode.unlinkat demoFs 0 "a" = some (0, demoFsAfter) ∧
    demoFsAfter.inodes[1]? =
      some { size := 0, type_ := DiskInodeType.file, nlinks := 0,
             entries := [], blocks := [] } ∧
    demoFsAfter.dataFree = demoFs.dataFree ∧ 100 ∉ demoFsAfter.dataFree ∧
    demoFsAfter.inodeFree = demoFs.inodeFree := by
  decide

/-- C1 (amended): for a name resolving to an inode with link count 1,
`unlinkat` decrements `nlinks` to 0 and *detaches* the inode's data
blocks from its pointer structure (size becomes 0, block list empties),
but the detached blocks are **not** returned to the filesystem
allocator — `dealloc_data` is never called, the free-block state is
unchanged and the blocks are leaked; the inode record slot is likewise
not returned to the inode bitmap. -/
theorem unlinkat_last_link_leaks (s : EasyFileSystem) (dirId : Nat) (name : String)
    (root d : DiskInode) (i_id : Nat)
    (hroot : s.inodes[dirId]? = some root) (hdir : root.is_dir = true)
    (hfind : find_inode_id name root = some i_id) (hneq : i_id ≠ dirId)
    (hd : s.inodes[i_id]? = some d) (hnl : d.nlinks = 1) :
    Inode.unlinkat s dirId name =
      some (0, { inodes := (s.inodes.set i_id
                    { d with nlinks := 0, size := 0, blocks := [] }).set dirId
                    (Inode.modify_entry name root),
                 inodeFree := s.inodeFree, dataFree := s.dataFree }) := by
  have hu : unlinkedInode d = { d with nlinks := 0, size := 0, blocks := [] } := by
    unfold unlinkedInode
    rw [hnl]
    norm_num [U32, DiskInode.clear_size]
  rw [unlinkat_spec s dirId name root d i_id hroot hdir hfind hneq hd, hu]

/-- Witness for the amended C1 at `demoFs`. -/
theorem unlinkat_last_link_leaks_witness :
    demoFs.inodes[0]? = some demoRoot ∧ find_inode_id "a" demoRoot = some 1 ∧
    demoFile.nlinks = 1 ∧
    Inode.unlinkat demoFs 0 "a" =
      some (0, { inodes := (demoFs.inodes.set 1
                    { demoFile with nlinks := 0, size := 0, blocks := [] }).set 0
                    (Inode.modify_entry "a" demoRoot),
                 inodeFree := demoFs.inodeFree, dataFree := demoFs.dataFree }) :=
  ⟨rfl, by decide, rfl,
    unlinkat_last_link_leaks demoFs 0 "a" demoRoot demoFile 1 rfl (by decide) (by decide)
      (by decide) rfl rfl⟩

/-- C7: `linkat`'s old-name lookup has no recoverable failure path —
when `old_name` does not resolve the operation is fatal (the forced
`unwrap()` panics, modelled as `none`); under the precondition that
`old_name` resolves (and resources suffice), the fatal branch is
unreachable and `linkat` returns 0. -/
theorem linkat_old_lookup_fatal (s : EasyFileSystem) (dirId : Nat)
    (old_name new_name : String) (root : DiskInode)
    (hne : old_name ≠ new_name)
    (hroot : s.inodes[dirId]? = some root) (hdir : root.is_dir = true) :
    (find_inode_id old_name root = none → Inode.linkat s dirId old_name new_name = none) ∧
    (∀ i_id d, find_inode_id old_name root = some i_id → i_id ≠ dirId →
      root.blocks_num_needed ((fileCount root + 1) * DIRENT_SZ) ≤ s.dataFree.length →
      s.inodes[i_id]? = some d →
      ∃ s', Inode.linkat s dirId old_name new_name = some (0, s')) := by
  constructor
  · intro hnone
    simp only [Inode.linkat, if_neg hne, hroot, hdir, hnone, if_true]
  · intro i_id d hfind hneq halloc hd
    exact ⟨_, linkat_spec s dirId old_name new_name root d i_id hne hroot hdir hfind hneq
      halloc hd⟩

/-- Witness for C7: in `demoFs`, `"z"` does not resolve and
`linkat("z","b")` is fatal; `"a"` resolves and `linkat("a","b")`
returns 0. -/
theorem linkat_old_lookup_fatal_witness :
    Inode.linkat demoFs 0 "z" "b" = none ∧
    (∃ s', Inode.linkat demoFs 0 "a" "b" = some (0, s')) :=
  ⟨(linkat_old_lookup_fatal demoFs 0 "z" "b" demoRoot (by decide) rfl (by decide)).1
      (by decide),
   (linkat_old_lookup_fatal demoFs 0 "a" "b" demoRoot (by decide) rfl (by decide)).2
      1 demoFile (by decide) (by decide) (by decide) rfl⟩

/-- C3: link-count accounting.  (i) An inode created by `create` starts
with `nlinks = 1`; (ii) a successful `linkat` on distinct names
increments the target inode's `nlinks` by exactly 1; (iii) a successful
`unlinkat` decrements it by exactly 1; in each case `state` on the
target inode id reports the resulting count — in particular after
`create "a"` then `linkat "a" "b"` it reports 2, and after a subsequent
`unlinkat "a"` it reports 1 (see the witness). -/
theorem nlinks_accounting :
    (∀ (s : EasyFileSystem) (dirId : Nat) (name : String) (root : DiskInode)
        (nid : Nat) (rest : List Nat),
      s.inodes[dirId]? = some root → root.is_dir = true →
      find_inode_id name root = none → s.inodeFree = nid :: rest → nid ≠ dirId →
      nid < s.inodes.length →
      root.blocks_num_needed ((fileCount root + 1) * DIRENT_SZ) ≤ s.dataFree.length →
      ∃ s', Inode.create s dirId name = some (some nid, s') ∧
        Inode.state s' nid = some ((1, true), s')) ∧
    (∀ (s : EasyFileSystem) (dirId : Nat) (old_name new_name : String)
        (root d : DiskInode) (i_id : Nat),
      old_name ≠ new_name → s.inodes[dirId]? = some root → root.is_dir = true →
      find_inode_id old_name root = some i_id → i_id ≠ dirId →
      root.blocks_num_needed ((fileCount root + 1) * DIRENT_SZ) ≤ s.dataFree.length →
      s.inodes[i_id]? = some d → d.nlinks + 1 < U32 →
      ∃ s', Inode.linkat s dirId old_name new_name = some (0, s') ∧
        Inode.state s' i_id = some ((d.nlinks + 1, d.is_file), s')) ∧
    (∀ (s : EasyFileSystem) (dirId : Nat) (name : String) (root d : DiskInode)
        (i_id : Nat),
      s.inodes[dirId]? = some root → root.is_dir = true →
      find_inode_id name root = some i_id → i_id ≠ dirId →
      s.inodes[i_id]? = some d → 1 ≤ d.nlinks → d.nlinks < U32 →
      ∃ s', Inode.unlinkat s dirId name = some (0, s') ∧
        Inode.state s' i_id = some ((d.nlinks - 1, d.is_file), s')) := by
  refine ⟨?_, ?_, ?_⟩
  · intro s dirId name root nid rest hroot hdir hnodup hfree hnid hvalid halloc
    refine ⟨_, create_spec s dirId name root nid rest hroot hdir hnodup hfree hnid hvalid
      halloc, ?_⟩
    have hget : ((s.inodes.set nid (initDiskInode DiskInodeType.file)).set dirId
        ((root.increase_size ((fileCount root + 1) * DIRENT_SZ)
            (s.dataFree.take
              (root.blocks_num_needed ((fileCount root + 1) * DIRENT_SZ)))).writeRecord
          (fileCount root) (DirEntry.mk name nid)))[nid]? =
        some (initDiskInode DiskInodeType.file) := by
      rw [List.getElem?_set_ne (Ne.symm hnid),
        List.getElem?_set_self (by simpa using hvalid)]
    simp only [Inode.state, hget]
    rw [List_set_get?_self _ _ _ hget]
    simp [initDiskInode, DiskInode.is_file]
  · intro s dirId old_name new_name root d i_id hne hroot hdir hfind hneq halloc hd hb
    refine ⟨_, linkat_spec s dirId old_name new_name root d i_id hne hroot hdir hfind hneq
      halloc hd, ?_⟩
    have hlen : i_id < s.inodes.length := lt_length_of_getElem? hd
    have hget : ((s.inodes.set dirId
        ((root.increase_size ((fileCount root + 1) * DIRENT_SZ)
            (s.dataFree.take
              (root.blocks_num_needed ((fileCount root + 1) * DIRENT_SZ)))).writeRecord
          (fileCount root) (DirEntry.mk new_name i_id))).set i_id
          { d with nlinks := (d.nlinks + 1) % U32 })[i_id]? =
        some { d with nlinks := (d.nlinks + 1) % U32 } :=
      List.getElem?_set_self (by simpa using hlen)
    simp only [Inode.state, hget]
    rw [List_set_get?_self _ _ _ hget]
    simp [Nat.mod_eq_of_lt hb, DiskInode.is_file]
  · intro s dirId name root d i_id hroot hdir hfind hneq hd h1nl hnlU
    refine ⟨_, unlinkat_spec s dirId name root d i_id hroot hdir hfind hneq hd, ?_⟩
    have hlen : i_id < s.inodes.length := lt_length_of_getElem? hd
    have hget : ((s.inodes.set i_id (unlinkedInode d)).set dirId
        (Inode.modify_entry name root))[i_id]? = some (unlinkedInode d) := by
      rw [List.getElem?_set_ne (Ne.symm hneq),
        List.getElem?_set_self (by simpa using hlen)]
    simp [Inode.state, hget, List_set_get?_self _ _ _ hget, unlinkedInode_nlinks,
      unlinkedInode_is_file, u32_dec_eq d.nlinks h1nl hnlU]

/-- Witness for C3, running the claim's own scenario: `create "a"` on a
fresh directory reports `nlinks = 1`; `linkat "a" "b"` then reports 2;
`unlinkat "a"` then reports 1. -/
theorem nlinks_accounting_witness :
    (∃ s', Inode.create chainFs0 0 "a" = some (some 1, s') ∧
      Inode.state s' 1 = some ((1, true), s')) ∧
    (∃ s', Inode.linkat chainFs1 0 "a" "b" = some (0, s') ∧
      Inode.state s' 1 = some ((2, true), s')) ∧
    (∃ s', Inode.unlinkat chainFs2 0 "a" = some (0, s') ∧
      Inode.state s' 1 = some ((1, true), s')) := by
  refine ⟨?_, ?_, ?_⟩
  · exact nlinks_accounting.1 chainFs0 0 "a" emptyRoot 1 [2] rfl (by decide) (by decide) rfl
      (by decide) (by decide) (by decide)
  · exact nlinks_accounting.2.1 chainFs1 0 "a" "b" chainRoot1 plainFile 1 (by decide) rfl
      (by decide) (by decide) (by decide) (by decide) rfl (by decide)
  · exact nlinks_accounting.2.2 chainFs2 0 "a" chainRoot2 chainFile2 1 rfl (by decide)
      (by decide) (by decide) rfl (by decide) (by decide)

/-- C6: directory packing invariant.  Starting from a directory whose
size is a multiple of `DIRENT_SZ`: (i) a successful `create` grows the
directory by exactly one record, appended at the previous end-of-size
(record index `file_count`), and the new size is again a multiple;
(ii) a successful `linkat` does the same with the `new_name` record;
(iii) a successful `unlinkat` shrinks the directory by exactly one
record, the new size again a multiple.  So every mutator preserves
`size % DIRENT_SZ = 0`. -/
theorem dir_packing_invariant :
    (∀ (s : EasyFileSystem) (dirId : Nat) (name : String) (root : DiskInode)
        (nid : Nat) (rest : List Nat),
      s.inodes[dirId]? = some root → root.is_dir = true →
      find_inode_id name root = none → s.inodeFree = nid :: rest → nid ≠ dirId →
      nid < s.inodes.length →
      root.blocks_num_needed ((fileCount root + 1) * DIRENT_SZ) ≤ s.dataFree.length →
      DIRENT_SZ ∣ root.size →
      ∃ s' root', Inode.create s dirId name = some (some nid, s') ∧
        s'.inodes[dirId]? = some root' ∧
        root'.size = root.size + DIRENT_SZ ∧ DIRENT_SZ ∣ root'.size ∧
        root'.recordAt (fileCount root) = DirEntry.mk name nid) ∧
    (∀ (s : EasyFileSystem) (dirId : Nat) (old_name new_name : String)
        (root d : DiskInode) (i_id : Nat),
      old_name ≠ new_name → s.inodes[dirId]? = some root → root.is_dir = true →
      find_inode_id old_name root = some i_id → i_id ≠ dirId →
      root.blocks_num_needed ((fileCount root + 1) * DIRENT_SZ) ≤ s.dataFree.length →
      s.inodes[i_id]? = some d → DIRENT_SZ ∣ root.size →
      ∃ s' root', Inode.linkat s dirId old_name new_name = some (0, s') ∧
        s'.inodes[dirId]? = some root' ∧
        root'.size = root.size + DIRENT_SZ ∧ DIRENT_SZ ∣ root'.size ∧
        root'.recordAt (fileCount root) = DirEntry.mk new_name i_id) ∧
    (∀ (s : EasyFileSystem) (dirId : Nat) (name : String) (root d : DiskInode)
        (i_id : Nat),
      s.inodes[dirId]? = some root → root.is_dir = true →
      find_inode_id name root = some i_id → i_id ≠ dirId →
      s.inodes[i_id]? = some d → DIRENT_SZ ∣ root.size →
      ∃ s' root', Inode.unlinkat s dirId name = some (0, s') ∧
        s'.inodes[dirId]? = some root' ∧
        root'.size = root.size - DIRENT_SZ ∧ DIRENT_SZ ∣ root'.size) := by
  have h32pos : 0 < DIRENT_SZ := by norm_num [DIRENT_SZ]
  refine ⟨?_, ?_, ?_⟩
  · intro s dirId name root nid rest hroot hdir hnodup hfree hnid hvalid halloc hmul
    have hdlt : dirId < s.inodes.length := lt_length_of_getElem? hroot
    refine ⟨_, (root.increase_size ((fileCount root + 1) * DIRENT_SZ)
        (s.dataFree.take
          (root.blocks_num_needed ((fileCount root + 1) * DIRENT_SZ)))).writeRecord
        (fileCount root) (DirEntry.mk name nid),
      create_spec s dirId name root nid rest hroot hdir hnodup hfree hnid
        hvalid halloc, ?_, ?_, ?_, ?_⟩
    · show ((s.inodes.set nid (initDiskInode DiskInodeType.file)).set dirId _)[dirId]? = _
      rw [List.getElem?_set_self (by simpa using hdlt)]
    · rw [writeRecord_size]
      exact grown_size_eq root hmul
    · rw [writeRecord_size]
      exact dvd_mul_left DIRENT_SZ (fileCount root + 1)
    · exact writeRecord_recordAt _ _ _ (Nat.le_refl _)
  · intro s dirId old_name new_name root d i_id hne hroot hdir hfind hneq halloc hd hmul
    have hdlt : dirId < s.inodes.length := lt_length_of_getElem? hroot
    refine ⟨_, (root.increase_size ((fileCount root + 1) * DIRENT_SZ)
        (s.dataFree.take
          (root.blocks_num_needed ((fileCount root + 1) * DIRENT_SZ)))).writeRecord
        (fileCount root) (DirEntry.mk new_name i_id),
      linkat_spec s dirId old_name new_name root d i_id hne hroot hdir hfind
        hneq halloc hd, ?_, ?_, ?_, ?_⟩
    · show ((s.inodes.set dirId _).set i_id _)[dirId]? = _
      rw [List.getElem?_set_ne hneq, List.getElem?_set_self (by simpa using hdlt)]
    · rw [writeRecord_size]
      exact grown_size_eq root hmul
    · rw [writeRecord_size]
      exact dvd_mul_left DIRENT_SZ (fileCount root + 1)
    · exact writeRecord_recordAt _ _ _ (Nat.le_refl _)
  · intro s dirId name root d i_id hroot hdir hfind hneq hd hmul
    have hdlt : dirId < s.inodes.length := lt_length_of_getElem? hroot
    refine ⟨_, Inode.modify_entry name root,
      unlinkat_spec s dirId name root d i_id hroot hdir hfind hneq hd,
      ?_, ?_, ?_⟩
    · show ((s.inodes.set i_id (unlinkedInode d)).set dirId _)[dirId]? = _
      rw [List.getElem?_set_self (by simpa using hdlt)]
    · rw [modify_entry_size_of_found name root i_id hfind]
      have hpos := fileCount_pos_of_found name root i_id hfind
      obtain ⟨k, hk⟩ := hmul
      rw [fileCount, hk, Nat.mul_div_cancel_left k h32pos] at hpos ⊢
      have h32 : DIRENT_SZ = 32 := rfl
      rw [h32]
      omega
    · rw [modify_entry_size_of_found name root i_id hfind]
      exact dvd_mul_left DIRENT_SZ (fileCount root - 1)

/-- Witness for C6: `create` on a fresh directory (size 0 → 32),
`linkat` on a one-record directory (32 → 64), `unlinkat` on the
three-record directory (96 → 64). -/
theorem dir_packing_invariant_witness :
    (∃ s' root', Inode.create chainFs0 0 "a" = some (some 1, s') ∧
      s'.inodes[0]? = some root' ∧
      root'.size = emptyRoot.size + DIRENT_SZ ∧ DIRENT_SZ ∣ root'.size ∧
      root'.recordAt (fileCount emptyRoot) = DirEntry.mk "a" 1) ∧
    (∃ s' root', Inode.linkat chainFs1 0 "a" "b" = some (0, s') ∧
      s'.inodes[0]? = some root' ∧
      root'.size = chainRoot1.size + DIRENT_SZ ∧ DIRENT_SZ ∣ root'.size ∧
      root'.recordAt (fileCount chainRoot1) = DirEntry.mk "b" 1) ∧
    (∃ s' root', Inode.unlinkat abcFs 0 "b" = some (0, s') ∧
      s'.inodes[0]? = some root' ∧
      root'.size = abcRoot.size - DIRENT_SZ ∧ DIRENT_SZ ∣ root'.size) := by
  refine ⟨?_, ?_, ?_⟩
  · exact dir_packing_invariant.1 chainFs0 0 "a" emptyRoot 1 [2] rfl (by decide) (by decide)
      rfl (by decide) (by decide) (by decide) (by decide)
  · exact dir_packing_invariant.2.1 chainFs1 0 "a" "b" chainRoot1 plainFile 1 (by decide)
      rfl (by decide) (by decide) (by decide) (by decide) rfl (by decide)
  · exact dir_packing_invariant.2.2 abcFs 0 "b" abcRoot plainFile 2 rfl (by decide)
      (by decide) (by decide) rfl (by decide)

/-- Characterization of the record-shift loop of `modify_entry`
(`for j in i..file_count-1: e[j] := e[j+1]`): positions below `i` and
from `i+n` on are untouched, positions `i ≤ k < i+n` receive the old
`k+1` record; size and record-list length are unchanged. -/
theorem shift_fold_spec (n : Nat) : ∀ (i : Nat) (d : DiskInode),
    (i + n) * DIRENT_SZ ≤ d.size → i + n + 1 ≤ d.entries.length →
    (((List.range' i n).foldl (fun acc j => acc.writeRecord j (acc.recordAt (j + 1)))
        d).size = d.size ∧
     ((List.range' i n).foldl (fun acc j => acc.writeRecord j (acc.recordAt (j + 1)))
        d).entries.length = d.entries.length) ∧
    (∀ k, k < i ∨ i + n ≤ k →
      ((List.range' i n).foldl (fun acc j => acc.writeRecord j (acc.recordAt (j + 1)))
        d).entries[k]? = d.entries[k]?) ∧
    (∀ k, i ≤ k → k < i + n →
      ((List.range' i n).foldl (fun acc j => acc.writeRecord j (acc.recordAt (j + 1)))
        d).entries[k]? = d.entries[k + 1]?) := by
  induction n with
  | zero =>
    intro i d hsz hlen
    exact ⟨⟨rfl, rfl⟩, fun k _ => rfl, fun k hk1 hk2 => by omega⟩
  | succ n ih =>
    intro i d hsz hlen
    have hw : (i + 1) * DIRENT_SZ ≤ d.size :=
      le_trans (Nat.mul_le_mul_right _ (by omega)) hsz
    have hilen : i < d.entries.length := by omega
    have hacc : d.writeRecord i (d.recordAt (i + 1)) =
        { d with entries := d.entries.set i (d.recordAt (i + 1)) } := by
      unfold DiskInode.writeRecord padSet
      rw [if_pos hw, if_pos hilen]
    have hfold : (List.range' i (n + 1)).foldl
        (fun acc j => acc.writeRecord j (acc.recordAt (j + 1))) d =
        (List.range' (i + 1) n).foldl
          (fun acc j => acc.writeRecord j (acc.recordAt (j + 1)))
          { d with entries := d.entries.set i (d.recordAt (i + 1)) } := by
      rw [show List.range' i (n + 1) = i :: List.range' (i + 1) n from rfl,
        List.foldl_cons, hacc]
    have ihs := ih (i + 1) { d with entries := d.entries.set i (d.recordAt (i + 1)) }
      (by
        show (i + 1 + n) * DIRENT_SZ ≤ d.size
        have he : i + 1 + n = i + (n + 1) := by omega
        rw [he]; exact hsz)
      (by
        show i + 1 + n + 1 ≤ (d.entries.set i (d.recordAt (i + 1))).length
        rw [List.length_set]; omega)
    obtain ⟨⟨ihsz, ihlen⟩, ihout, ihin⟩ := ihs
    rw [hfold]
    refine ⟨⟨?_, ?_⟩, ?_, ?_⟩
    · rw [ihsz]
    · rw [ihlen]
      show (d.entries.set i (d.recordAt (i + 1))).length = d.entries.length
      exact List.length_set d.entries i _
    · intro k hk
      rcases hk with hk | hk
      · rw [ihout k (Or.inl (by omega))]
        exact List.getElem?_set_ne (by omega)
      · rw [ihout k (Or.inr (by omega))]
        exact List.getElem?_set_ne (by omega)
    · intro k hk1 hk2
      by_cases hk : k = i
      · subst hk
        rw [ihout k (Or.inl (by omega))]
        show (d.entries.set k (d.recordAt (k + 1)))[k]? = d.entries[k + 1]?
        rw [List.getElem?_set_self hilen]
        have h1 : k + 1 < d.entries.length := by omega
        rw [List.getElem?_eq_getElem h1]
        unfold DiskInode.recordAt
        rw [List.getD_eq_getElem?_getD, List.getElem?_eq_getElem h1]
        rfl
      · rw [ihin k (by omega) (by omega)]
        exact List.getElem?_set_ne (by omega)

/-- Removing index `i` from the table of a function over `0..m` leaves
the first `i` values and shifts the rest down by one. -/
theorem range_map_eraseIdx {α : Type} :
    ∀ (i : Nat) (g : Nat → α) (m : Nat), i < m →
      (List.range (m - 1)).map (fun k => if k < i then g k else g (k + 1)) =
        ((List.range m).map g).eraseIdx i := by
  intro i
  induction i with
  | zero =>
    intro g m hm
    match m, hm with
    | m' + 1, _ =>
      rw [List.range_succ_eq_map, List.map_cons, List.map_map,
        show ((g 0 :: (List.range m').map (g ∘ Nat.succ)).eraseIdx 0 =
          (List.range m').map (g ∘ Nat.succ)) from rfl]
      simp only [Nat.add_sub_cancel]
      refine List.map_eq_map_iff.mpr ?_
      intro x hx
      simp [Function.comp]
  | succ i ih =>
    intro g m hm
    match m, hm with
    | m' + 1, hm =>
      have hm' : i < m' := by omega
      have h1 : 1 ≤ m' := by omega
      rw [List.range_succ_eq_map, List.map_cons, List.map_map,
        show ((g 0 :: (List.range m').map (g ∘ Nat.succ)).eraseIdx (i + 1) =
          g 0 :: ((List.range m').map (g ∘ Nat.succ)).eraseIdx i) from rfl,
        ← ih (g ∘ Nat.succ) m' hm']
      rw [Nat.add_sub_cancel,
        show m' = (m' - 1) + 1 from by omega,
        List.range_succ_eq_map, List.map_cons, List.map_map]
      simp only [Nat.add_sub_cancel]
      refine congrArg₂ List.cons (by simp) ?_
      refine List.map_eq_map_iff.mpr ?_
      intro x hx
      simp only [Function.comp]
      by_cases hxi : x < i
      · rw [if_pos hxi, if_pos (by omega)]
      · rw [if_neg hxi, if_neg (by omega)]

/-- Record-level effect of `modify_entry` when the name occurs at first
matching index `i`: the size shrinks by one record slot and, within the
new record count, records below `i` stay and records from `i` on shift
left by one — i.e. record `i` was removed. -/
theorem modify_entry_records (name : String) (d : DiskInode) (i : Nat)
    (hwf : d.entries.length = fileCount d)
    (hidx : (List.range (fileCount d)).find?
      (fun j => (d.recordAt j).name = name) = some i) :
    (Inode.modify_entry name d).size = (fileCount d - 1) * DIRENT_SZ ∧
    fileCount (Inode.modify_entry name d) = fileCount d - 1 ∧
    (∀ k, k < fileCount d - 1 →
      (Inode.modify_entry name d).recordAt k =
        if k < i then d.recordAt k else d.recordAt (k + 1)) := by
  have h32pos : 0 < DIRENT_SZ := by norm_num [DIRENT_SZ]
  have hi : i < fileCount d := List.mem_range.1 (List.mem_of_find?_eq_some hidx)
  have hfold := shift_fold_spec (fileCount d - 1 - i) i d
    (by
      refine le_trans (Nat.mul_le_mul_right DIRENT_SZ ?_) (Nat.div_mul_le_self d.size _)
      show i + (fileCount d - 1 - i) ≤ fileCount d
      omega)
    (by rw [hwf]; omega)
  obtain ⟨⟨hsz, hlen⟩, hout, hin⟩ := hfold
  set F := (List.range' i (fileCount d - 1 - i)).foldl
      (fun acc j => acc.writeRecord j (acc.recordAt (j + 1))) d with hF
  have hme : Inode.modify_entry name d = { F with size := (fileCount d - 1) * DIRENT_SZ } := by
    simp only [Inode.modify_entry, hidx]
  rw [hme]
  refine ⟨rfl, ?_, ?_⟩
  · show (fileCount d - 1) * DIRENT_SZ / DIRENT_SZ = fileCount d - 1
    exact Nat.mul_div_cancel _ h32pos
  · intro k hk
    show F.entries.getD k DirEntry.empty = _
    by_cases hki : k < i
    · rw [if_pos hki, List.getD_eq_getElem?_getD, hout k (Or.inl hki)]
      rw [DiskInode.recordAt, List.getD_eq_getElem?_getD]
    · rw [if_neg hki, List.getD_eq_getElem?_getD, hin k (by omega) (by omega)]
      rw [DiskInode.recordAt, List.getD_eq_getElem?_getD]

/-- C4: unlink compaction.  For a packed directory in which `name`
first matches at record index `i` (resolving to an inode other than
the directory itself), `unlinkat` returns 0, afterwards `ls` returns
the old name list with exactly that first match removed (later records
shifted left one slot), and the directory size shrank by exactly one
record. -/
theorem unlinkat_compaction (s : EasyFileSystem) (dirId : Nat) (name : String)
    (root d : DiskInode) (i : Nat)
    (hroot : s.inodes[dirId]? = some root) (hdir : root.is_dir = true)
    (hwf : root.entries.length = fileCount root)
    (hmul : DIRENT_SZ ∣ root.size)
    (hidx : (List.range (fileCount root)).find?
      (fun j => (root.recordAt j).name = name) = some i)
    (hneq : (root.recordAt i).inode_id ≠ dirId)
    (hd : s.inodes[(root.recordAt i).inode_id]? = some d) :
    ∃ s', Inode.unlinkat s dirId name = some (0, s') ∧
      Inode.ls s' dirId = some ((root.entries.map DirEntry.name).eraseIdx i) ∧
      (s'.inodes[dirId]?).map DiskInode.size = some (root.size - DIRENT_SZ) := by
  have h32pos : 0 < DIRENT_SZ := by norm_num [DIRENT_SZ]
  have hfind : find_inode_id name root = some ((root.recordAt i).inode_id) := by
    unfold find_inode_id
    rw [hidx]
  have hdlt : dirId < s.inodes.length := lt_length_of_getElem? hroot
  obtain ⟨hsz, hfc, hrec⟩ := modify_entry_records name root i hwf hidx
  have hi : i < fileCount root := List.mem_range.1 (List.mem_of_find?_eq_some hidx)
  have hget : ((s.inodes.set (root.recordAt i).inode_id (unlinkedInode d)).set dirId
      (Inode.modify_entry name root))[dirId]? = some (Inode.modify_entry name root) :=
    List.getElem?_set_self (by simpa using hdlt)
  refine ⟨_, unlinkat_spec s dirId name root d _ hroot hdir hfind hneq hd, ?_, ?_⟩
  · simp only [Inode.ls, hget]
    rw [hfc]
    have hcong : (List.range (fileCount root - 1)).map
        (fun k => ((Inode.modify_entry name root).recordAt k).name) =
        (List.range (fileCount root - 1)).map
        (fun k => if k < i then (root.recordAt k).name else (root.recordAt (k + 1)).name) := by
      refine List.map_eq_map_iff.mpr ?_
      intro x hx
      rw [hrec x (List.mem_range.1 hx)]
      by_cases hxi : x < i
      · rw [if_pos hxi, if_pos hxi]
      · rw [if_neg hxi, if_neg hxi]
    rw [hcong, range_map_eraseIdx i (fun k => (root.recordAt k).name) (fileCount root) hi]
    have hnames : (List.range (fileCount root)).map (fun k => (root.recordAt k).name) =
        root.entries.map DirEntry.name := by
      rw [← hwf]
      calc (List.range root.entries.length).map (fun k => (root.recordAt k).name)
          = ((List.range root.entries.length).map
              (fun k => root.entries.getD k DirEntry.empty)).map DirEntry.name := by
            rw [List.map_map]; rfl
        _ = root.entries.map DirEntry.name := by
            rw [range_map_getD root.entries DirEntry.empty]
    rw [hnames]
  · show (((s.inodes.set (root.recordAt i).inode_id (unlinkedInode d)).set dirId
      (Inode.modify_entry name root))[dirId]?).map DiskInode.size = _
    rw [hget]
    refine congrArg some ?_
    rw [hsz]
    obtain ⟨k, hk⟩ := hmul
    rw [fileCount, hk, Nat.mul_div_cancel_left k h32pos] at hi ⊢
    have h32 : DIRENT_SZ = 32 := rfl
    rw [h32]
    omega

/-- Witness for C4: the `[a, b, c]` directory of the claim — unlinking
`"b"` returns 0, `ls` gives `["a", "c"]`, size drops 96 → 64. -/
theorem unlinkat_compaction_witness :
    ∃ s', Inode.unlinkat abcFs 0 "b" = some (0, s') ∧
      Inode.ls s' 0 = some ["a", "c"] ∧
      (s'.inodes[0]?).map DiskInode.size = some 64 :=
  unlinkat_compaction abcFs 0 "b" abcRoot plainFile 1 rfl (by decide) (by decide)
    (by decide) (by decide) (by decide) (by decide)
